import Mathlib

/-!
Shallow embedding of the core controllers of the browser-based 3D walkthrough
(player controller, chase camera, interaction system, video screen system,
input manager) together with theorems settling the specification claims.

JS numbers are modelled as real numbers; JS `Set` as `Finset`; the external
raycast and media-playback collaborators are modelled as oracle parameters.
-/

open Real

noncomputable section

/-- Three-component vector (models THREE.Vector3 as used by the controllers). -/
@[ext]
structure Vec3 where
  x : ℝ
  y : ℝ
  z : ℝ

/-- Two-component vector (models THREE.Vector2). -/
@[ext]
structure Vec2 where
  x : ℝ
  y : ℝ

namespace Vec3

/-- `THREE.Vector3.add`. -/
def add (a b : Vec3) : Vec3 := ⟨a.x + b.x, a.y + b.y, a.z + b.z⟩

/-- `THREE.Vector3.multiplyScalar`. -/
def multiplyScalar (a : Vec3) (s : ℝ) : Vec3 := ⟨a.x * s, a.y * s, a.z * s⟩

/-- `THREE.Vector3.addScaledVector`. -/
def addScaledVector (a b : Vec3) (s : ℝ) : Vec3 :=
  ⟨a.x + b.x * s, a.y + b.y * s, a.z + b.z * s⟩

/-- `THREE.Vector3.length`: `sqrt(x*x + y*y + z*z)`. -/
noncomputable def length (a : Vec3) : ℝ := Real.sqrt (a.x * a.x + a.y * a.y + a.z * a.z)

/-- `THREE.Vector3.normalize`: `divideScalar(length || 1)` (the zero vector is
left unchanged because JS `0 || 1` evaluates to `1`). -/
noncomputable def normalize (a : Vec3) : Vec3 :=
  a.multiplyScalar (1 / (if a.length = 0 then 1 else a.length))

/-- `THREE.Vector3.lerp`: each component moves by `(target − this) * alpha`. -/
def lerp (a target : Vec3) (alpha : ℝ) : Vec3 :=
  ⟨a.x + (target.x - a.x) * alpha,
   a.y + (target.y - a.y) * alpha,
   a.z + (target.z - a.z) * alpha⟩

/-- The zero vector (`new THREE.Vector3(0, 0, 0)`). -/
def zero : Vec3 := ⟨0, 0, 0⟩

end Vec3

namespace Vec2

/-- `THREE.Vector2.length`: `sqrt(x*x + y*y)`. -/
noncomputable def length (a : Vec2) : ℝ := Real.sqrt (a.x * a.x + a.y * a.y)

end Vec2

namespace Utils

/-- `Utils.clamp(value, min, max) = Math.max(min, Math.min(max, value))`. -/
def clamp (value lo hi : ℝ) : ℝ := max lo (min hi value)

end Utils

/-! ## Configuration constants (`Config` in config.js) -/

namespace Config

namespace player

def moveSpeed : ℝ := 5
def sprintMultiplier : ℝ := 1.8
def turnSpeed : ℝ := 0.1
def height : ℝ := 1.8
def radius : ℝ := 0.4
def gravity : ℝ := -20

end player

namespace camera

def offset : Vec3 := ⟨0, 3, 6⟩
def lookAtOffset : Vec3 := ⟨0, 1.5, 0⟩
def mouseSensitivity : ℝ := 0.002
def minPolarAngle : ℝ := 0.3
noncomputable def maxPolarAngle : ℝ := Real.pi / 2
def smoothing : ℝ := 0.1

end camera

namespace interaction

/-- `highlightColor: 0x00ffff` (hex colors modelled as naturals). -/
def highlightColor : ℕ := 0x00ffff
def highlightIntensity : ℝ := 0.5

end interaction

namespace input

/-- `interact: ['KeyE']`. -/
def interact : List String := ["KeyE"]

end input

end Config

/-! ## InputManager (cameraController.js, second part) -/

namespace InputManager

/-- `isKeyPressed`: true when any of the given key codes is in the pressed set. -/
def isKeyPressed (keys : Finset String) (keyCodes : List String) : Bool :=
  keyCodes.any (fun code => decide (code ∈ keys))

/-- `isInteractPressed`: reads whether any configured interact key is pressed
and, if so, deletes every configured interact key code from the pressed set
(the "consume the input" side effect).  Returns the flag and the new key set. -/
def isInteractPressed (keys : Finset String) : Bool × Finset String :=
  let pressed := isKeyPressed keys Config.input.interact
  if pressed then
    (pressed, Config.input.interact.foldl (fun ks code => ks.erase code) keys)
  else
    (pressed, keys)

end InputManager

/-! ## InteractionSystem.formatContent (interactionSystem.js) -/

/-! JS string primitives used by `formatContent`, implemented structurally on
character lists so that concrete evaluations reduce in the kernel. -/

namespace JsString

/-- JS `text.split('\n')` on a character list. -/
def splitNewline : List Char → List (List Char)
  | [] => [[]]
  | c :: rest =>
    let parts := splitNewline rest
    if c = '\n' then [] :: parts
    else
      match parts with
      | [] => [[c]]
      | p :: ps => (c :: p) :: ps

/-- Drop leading whitespace characters. -/
def dropLeadingWs : List Char → List Char
  | [] => []
  | c :: rest => if c.isWhitespace then dropLeadingWs rest else c :: rest

/-- JS `line.trim()`: strip whitespace from both ends. -/
def trim (cs : List Char) : List Char :=
  ((dropLeadingWs ((dropLeadingWs cs).reverse)).reverse)

/-- JS `line.startsWith(marker)` (first argument is the marker). -/
def startsWithMarker : List Char → List Char → Bool
  | [], _ => true
  | _ :: _, [] => false
  | m :: ms, c :: cs => m = c && startsWithMarker ms cs

end JsString

namespace InteractionSystem

/-- The literal bullet marker appearing in the source of `formatContent`.
Its three characters are U+00E2, U+20AC, U+00A2 (the bytes of U+2022 '•'
decoded as Latin-1), exactly as stored in interactionSystem.js. -/
def sourceBulletMarker : String := "â€¢"

/-- `formatContent`: split on newlines, trim each line; a line starting with
the source's bullet-marker literal becomes `<li>…</li>` holding
`line.substring(1).trim()`, any other non-empty line becomes `<p>…</p>`,
empty lines map to the empty string; all pieces are joined with `''`. -/
def formatContent (text : String) : String :=
  ⟨List.foldl (fun acc piece => acc ++ piece) []
    ((JsString.splitNewline text.data).map (fun rawLine =>
      let line := JsString.trim rawLine
      if JsString.startsWithMarker sourceBulletMarker.data line then
        "<li>".data ++ JsString.trim (line.drop 1) ++ "</li>".data
      else if line.length > 0 then
        "<p>".data ++ line ++ "</p>".data
      else
        []))⟩

end InteractionSystem

/-! ## CameraController (cameraController.js, first part)

The camera's mutable fields; targets are recomputed each update from the
followed player position.  The external `THREE.PerspectiveCamera` receives
`currentPosition`/`currentLookAt` verbatim, so it is not modelled. -/

structure CameraState where
  azimuthAngle : ℝ
  polarAngle : ℝ
  currentPosition : Vec3
  currentLookAt : Vec3
  targetPosition : Vec3
  targetLookAt : Vec3

namespace CameraController

/-- Constructor state: `azimuthAngle = 0`, `polarAngle = Math.PI / 2`, vectors
zero-initialized. -/
noncomputable def init : CameraState :=
  { azimuthAngle := 0
    polarAngle := Real.pi / 2
    currentPosition := Vec3.zero
    currentLookAt := Vec3.zero
    targetPosition := Vec3.zero
    targetLookAt := Vec3.zero }

/-- `handleMouseInput`: apply the raw mouse delta scaled by the sensitivity,
then clamp the polar angle into the configured range. -/
noncomputable def handleMouseInput (mouseDelta : Vec2) (s : CameraState) : CameraState :=
  { s with
    azimuthAngle := s.azimuthAngle - mouseDelta.x * Config.camera.mouseSensitivity
    polarAngle :=
      Utils.clamp (s.polarAngle - mouseDelta.y * Config.camera.mouseSensitivity)
        Config.camera.minPolarAngle Config.camera.maxPolarAngle }

/-- `updateTargetPositions`: desired position is the player position plus a
spherical offset of fixed radius at the current orbit angles; desired look-at
is the player position plus the configured look-at offset. -/
noncomputable def updateTargetPositions (playerPosition : Vec3) (s : CameraState) : CameraState :=
  let offsetDistance := Real.sqrt
    (Config.camera.offset.x * Config.camera.offset.x +
     Config.camera.offset.y * Config.camera.offset.y +
     Config.camera.offset.z * Config.camera.offset.z)
  let offset : Vec3 :=
    ⟨offsetDistance * Real.sin s.azimuthAngle * Real.sin s.polarAngle,
     offsetDistance * Real.cos s.polarAngle,
     offsetDistance * Real.cos s.azimuthAngle * Real.sin s.polarAngle⟩
  { s with
    targetPosition := playerPosition.add offset
    targetLookAt := playerPosition.add Config.camera.lookAtOffset }

/-- `smoothFollow`: frame-rate-independent exponential smoothing with
`t = 1 − (1 − smoothing)^(deltaTime·60)`. -/
noncomputable def smoothFollow (deltaTime : ℝ) (s : CameraState) : CameraState :=
  let t := 1 - (1 - Config.camera.smoothing) ^ (deltaTime * 60)
  { s with
    currentPosition := s.currentPosition.lerp s.targetPosition t
    currentLookAt := s.currentLookAt.lerp s.targetLookAt t }

/-- `update`: mouse input (only while the pointer is locked), then target
recomputation, then smoothing.  The followed target is assumed set (the
orchestrator sets it at startup); its position is passed explicitly. -/
noncomputable def update (deltaTime : ℝ) (isPointerLocked : Bool) (mouseDelta : Vec2)
    (playerPosition : Vec3) (s : CameraState) : CameraState :=
  let s1 := if isPointerLocked then handleMouseInput mouseDelta s else s
  smoothFollow deltaTime (updateTargetPositions playerPosition s1)

/-- `reset`: `azimuthAngle = 0`, `polarAngle = Math.PI / 2.5`. -/
noncomputable def reset (s : CameraState) : CameraState :=
  { s with azimuthAngle := 0, polarAngle := Real.pi / 2.5 }

/-- One frame of camera input as supplied by the orchestrator. -/
structure Frame where
  deltaTime : ℝ
  isPointerLocked : Bool
  mouseDelta : Vec2
  playerPosition : Vec3

/-- Run a sequence of camera updates. -/
noncomputable def run (frames : List Frame) (s : CameraState) : CameraState :=
  frames.foldl (fun st f => update f.deltaTime f.isPointerLocked f.mouseDelta f.playerPosition st) s

end CameraController

/-! ## PlayerController (unnamed/part_000) -/

/-- Player state fields mutated by `PlayerController.update`. -/
structure PlayerState where
  position : Vec3
  velocity : Vec3
  isGrounded : Bool
  moveDirection : Vec3
  targetRotation : ℝ
  currentRotation : ℝ

/-- Axis-aligned bounding box (models THREE.Box3). -/
structure Box3 where
  lo : Vec3
  hi : Vec3

/-- `THREE.Box3.intersectsBox`: boxes intersect unless they are separated
along some axis (touching boxes count as intersecting). -/
def Box3.intersectsBox (a b : Box3) : Prop :=
  ¬(b.hi.x < a.lo.x ∨ b.lo.x > a.hi.x ∨
    b.hi.y < a.lo.y ∨ b.lo.y > a.hi.y ∨
    b.hi.z < a.lo.z ∨ b.lo.z > a.hi.z)

instance (a b : Box3) : Decidable (a.intersectsBox b) := by
  unfold Box3.intersectsBox; infer_instance

/-- A non-player scene object as seen by the collision test: its world
bounding box (the render engine's `setFromObject`) and its `collidable` flag. -/
structure SceneObject where
  box : Box3
  collidable : Bool

/-- `Math.atan2(y, x)` (standard real arctangent with quadrant correction). -/
noncomputable def atan2 (y x : ℝ) : ℝ :=
  if 0 < x then Real.arctan (y / x)
  else if x < 0 then
    (if 0 ≤ y then Real.arctan (y / x) + Real.pi else Real.arctan (y / x) - Real.pi)
  else
    (if 0 < y then Real.pi / 2 else if y < 0 then -(Real.pi / 2) else 0)

namespace PlayerController

/-- `calculateMovement`: zero input zeroes `moveDirection`; otherwise the
camera forward is flattened to the XZ plane, a right vector derived, the two
are combined by the input axes, normalized, the target rotation is taken from
the direction, and the configured speed (with sprint multiplier) applied. -/
noncomputable def calculateMovement (input : Vec2) (cameraForward : Vec3)
    (isSprinting : Bool) (s : PlayerState) : PlayerState :=
  if input.length = 0 then
    { s with moveDirection := Vec3.zero }
  else
    let forward := (⟨cameraForward.x, 0, cameraForward.z⟩ : Vec3).normalize
    let right := (⟨-forward.z, 0, forward.x⟩ : Vec3).normalize
    let dir := ((Vec3.zero.addScaledVector forward input.y).addScaledVector right input.x).normalize
    let targetRot := if dir.length > 0 then atan2 dir.x dir.z else s.targetRotation
    let speed := Config.player.moveSpeed *
      (if isSprinting then Config.player.sprintMultiplier else 1)
    { s with moveDirection := dir.multiplyScalar speed, targetRotation := targetRot }

/-- `applyGravity`: integrate gravity while airborne; when grounded, zero any
downward vertical velocity. -/
def applyGravity (deltaTime : ℝ) (s : PlayerState) : PlayerState :=
  if !s.isGrounded then
    { s with velocity := { s.velocity with y := s.velocity.y + Config.player.gravity * deltaTime } }
  else if s.velocity.y < 0 then
    { s with velocity := { s.velocity with y := 0 } }
  else
    s

/-- `checkGround`: the downward ray from slightly above the player's centre is
an external render-engine query; `groundHit` is the distance of the nearest
non-player hit (within the raycaster range), if any.  The player is grounded
exactly when that distance is below `height/2 + 0.2`. -/
def checkGround (groundHit : Option ℝ) (s : PlayerState) : PlayerState :=
  { s with
    isGrounded :=
      match groundHit with
      | some d => if d < Config.player.height / 2 + 0.2 then true else false
      | none => false }

/-- The player's axis-aligned bounding box at a candidate position. -/
def playerBox (position : Vec3) : Box3 :=
  { lo := ⟨position.x - Config.player.radius,
           position.y - Config.player.height / 2,
           position.z - Config.player.radius⟩
    hi := ⟨position.x + Config.player.radius,
           position.y + Config.player.height / 2,
           position.z + Config.player.radius⟩ }

/-- `canMoveTo`: the candidate position is valid when the player's box
intersects no collidable scene object's box (the player's own mesh is not in
`scene`). -/
def canMoveTo (scene : List SceneObject) (position : Vec3) : Prop :=
  ∀ o ∈ scene, o.collidable = true → ¬(playerBox position).intersectsBox o.box

instance (scene : List SceneObject) (position : Vec3) :
    Decidable (canMoveTo scene position) := by
  unfold canMoveTo; infer_instance

/-- `move` before its final floor clamp: combine horizontal and vertical
displacement, try the full move, else retry horizontal-only and then
vertical-only (the vertical retry starts from the horizontal retry's result,
as in the source, which mutates `this.position` in between). -/
def moveUnclamped (scene : List SceneObject) (deltaTime : ℝ) (s : PlayerState) : PlayerState :=
  let horizontalMovement := s.moveDirection.multiplyScalar deltaTime
  let verticalMovement : Vec3 := ⟨0, s.velocity.y * deltaTime, 0⟩
  let totalMovement := horizontalMovement.add verticalMovement
  let newPosition := s.position.add totalMovement
  if canMoveTo scene newPosition then
    { s with position := newPosition }
  else
    let horizontalOnly := s.position.add horizontalMovement
    let pos1 := if canMoveTo scene horizontalOnly then horizontalOnly else s.position
    let verticalOnly := pos1.add verticalMovement
    let pos2 := if canMoveTo scene verticalOnly then verticalOnly else pos1
    { s with position := pos2 }

/-- `move`: the attempted displacement followed by the hard floor clamp: a
resulting `position.y` below `height/2` is snapped to `height/2`, the vertical
velocity zeroed, and the grounded flag forced true. -/
def move (scene : List SceneObject) (deltaTime : ℝ) (s : PlayerState) : PlayerState :=
  let s1 := moveUnclamped scene deltaTime s
  if s1.position.y < Config.player.height / 2 then
    { s1 with
      position := { s1.position with y := Config.player.height / 2 }
      velocity := { s1.velocity with y := 0 }
      isGrounded := true }
  else
    s1

/-- First while loop of `updateRotation`: `while (diff > π) diff -= 2π`. -/
noncomputable def wrapDown (d : ℝ) : ℝ :=
  if h : Real.pi < d then wrapDown (d - 2 * Real.pi) else d
termination_by Nat.ceil ((d - Real.pi) / (2 * Real.pi))
decreasing_by
  have hpi : (0:ℝ) < Real.pi := Real.pi_pos
  have h2pi : (0:ℝ) < 2 * Real.pi := by linarith
  have hx : 0 < (d - Real.pi) / (2 * Real.pi) := div_pos (by linarith) h2pi
  have hsub : (d - 2 * Real.pi - Real.pi) / (2 * Real.pi)
      = (d - Real.pi) / (2 * Real.pi) - 1 := by
    field_simp
    ring
  rw [hsub]
  set x := (d - Real.pi) / (2 * Real.pi)
  have : (Nat.ceil (x - 1) : ℝ) < x := by
    rcases le_or_lt (x - 1) 0 with h0 | h0
    · have : Nat.ceil (x - 1) = 0 := Nat.ceil_eq_zero.mpr h0
      rw [this]
      exact_mod_cast hx
    · have := Nat.ceil_lt_add_one (le_of_lt h0)
      linarith
  exact Nat.lt_ceil.mpr this

/-- Second while loop of `updateRotation`: `while (diff < -π) diff += 2π`. -/
noncomputable def wrapUp (d : ℝ) : ℝ :=
  if h : d < -Real.pi then wrapUp (d + 2 * Real.pi) else d
termination_by Nat.ceil ((-Real.pi - d) / (2 * Real.pi))
decreasing_by
  have hpi : (0:ℝ) < Real.pi := Real.pi_pos
  have h2pi : (0:ℝ) < 2 * Real.pi := by linarith
  have hx : 0 < (-Real.pi - d) / (2 * Real.pi) := div_pos (by linarith) h2pi
  have hsub : (-Real.pi - (d + 2 * Real.pi)) / (2 * Real.pi)
      = (-Real.pi - d) / (2 * Real.pi) - 1 := by
    field_simp
    ring
  rw [hsub]
  set x := (-Real.pi - d) / (2 * Real.pi)
  have : (Nat.ceil (x - 1) : ℝ) < x := by
    rcases le_or_lt (x - 1) 0 with h0 | h0
    · have : Nat.ceil (x - 1) = 0 := Nat.ceil_eq_zero.mpr h0
      rw [this]
      exact_mod_cast hx
    · have := Nat.ceil_lt_add_one (le_of_lt h0)
      linarith
  exact Nat.lt_ceil.mpr this

/-- The wrapped rotation difference: both while loops in source order. -/
noncomputable def wrapRotation (d : ℝ) : ℝ := wrapUp (wrapDown d)

/-- `updateRotation`: wrap the rotation difference, then apply the smoothing
factor (`deltaTime` is accepted but unused by the source body). -/
noncomputable def updateRotation (s : PlayerState) : PlayerState :=
  let rotationDiff := wrapRotation (s.targetRotation - s.currentRotation)
  { s with currentRotation := s.currentRotation + rotationDiff * Config.player.turnSpeed }

/-- `update`: no movement while the pointer is not locked; otherwise movement
calculation, gravity, ground check, move, rotation smoothing, in source order.
Input state, the ground-ray result, and the collidable scene are supplied by
the external collaborators. -/
noncomputable def update (deltaTime : ℝ) (cameraForward : Vec3) (isPointerLocked : Bool)
    (input : Vec2) (isSprinting : Bool) (groundHit : Option ℝ)
    (scene : List SceneObject) (s : PlayerState) : PlayerState :=
  if isPointerLocked then
    updateRotation
      (move scene deltaTime
        (checkGround groundHit
          (applyGravity deltaTime
            (calculateMovement input cameraForward isSprinting s))))
  else
    s

end PlayerController

/-! ## InteractionSystem state machine (interactionSystem.js)

Interactables are identified by natural numbers; the raycast (and its
`findInteractableParent` resolution) is an external render-engine query whose
resolved result is supplied per frame as `Option ℕ`.  Each interactable's
highlightable surface is modelled as one mesh material; the info-panel title
and body are handed to the external panel UI and not stored here. -/

/-- Per-mesh material state: current emissive color/intensity plus the
lazily captured original pair (`userData.originalEmissive` /
`userData.originalEmissiveIntensity`). -/
structure MatState where
  emissive : ℕ
  emissiveIntensity : ℝ
  originalEmissive : Option (ℕ × ℝ)

/-- InteractionSystem mutable state. -/
structure InteractionState where
  currentInteractable : Option ℕ
  mats : ℕ → MatState
  promptVisible : Bool
  isPanelOpen : Bool

/-- Observable highlight actions, used to state the clear/apply sequencing. -/
inductive HighlightOp where
  | applyH (o : ℕ)
  | clearH (o : ℕ)
deriving DecidableEq, Repr

namespace InteractionSystem

/-- `highlightObject`: capture the original emissive pair on first highlight,
then set the highlight color and intensity. -/
def highlightObject (o : ℕ) (s : InteractionState) : InteractionState × List HighlightOp :=
  let m := s.mats o
  let m1 :=
    match m.originalEmissive with
    | none => { m with originalEmissive := some (m.emissive, m.emissiveIntensity) }
    | some _ => m
  let m2 := { m1 with
    emissive := Config.interaction.highlightColor
    emissiveIntensity := Config.interaction.highlightIntensity }
  ({ s with mats := fun o2 => if o2 = o then m2 else s.mats o2 }, [HighlightOp.applyH o])

/-- `clearHighlight`: restore the current interactable's captured emissive
pair (a no-op when there is no current interactable or nothing was captured;
the capture itself is kept, as in the source). -/
def clearHighlight (s : InteractionState) : InteractionState × List HighlightOp :=
  match s.currentInteractable with
  | none => (s, [])
  | some o =>
    match (s.mats o).originalEmissive with
    | none => (s, [])
    | some (c, i) =>
      ({ s with mats := fun o2 =>
          if o2 = o then { s.mats o with emissive := c, emissiveIntensity := i }
          else s.mats o2 },
       [HighlightOp.clearH o])

/-- `setCurrentInteractable`: early return when the same object is re-hit;
otherwise clear the previous highlight, set and highlight the new target, and
show the prompt. -/
def setCurrentInteractable (o : ℕ) (s : InteractionState) : InteractionState × List HighlightOp :=
  if s.currentInteractable = some o then
    (s, [])
  else
    let p1 := clearHighlight s
    let s2 := { p1.1 with currentInteractable := some o }
    let p2 := highlightObject o s2
    ({ p2.1 with promptVisible := true }, p1.2 ++ p2.2)

/-- `clearCurrentInteractable`: early return when there is no target;
otherwise clear the highlight, drop the target, and hide the prompt. -/
def clearCurrentInteractable (s : InteractionState) : InteractionState × List HighlightOp :=
  match s.currentInteractable with
  | none => (s, [])
  | some _ =>
    let p1 := clearHighlight s
    ({ p1.1 with currentInteractable := none, promptVisible := false }, p1.2)

/-- `interact`: open the info panel for the current target (title/body go to
the external panel UI; pointer-lock release is an external effect), then clear
the current target. -/
def interact (s : InteractionState) : InteractionState × List HighlightOp :=
  match s.currentInteractable with
  | none => (s, [])
  | some _ =>
    clearCurrentInteractable { s with isPanelOpen := true }

/-- `update`: skip everything while the panel is open; with the pointer not
locked, clear any highlight and hide the prompt; otherwise process the
resolved raycast result and then a consumed interact-key edge. -/
def update (isPointerLocked : Bool) (ray : Option ℕ) (interactPressed : Bool)
    (s : InteractionState) : InteractionState × List HighlightOp :=
  if s.isPanelOpen then
    (s, [])
  else if !isPointerLocked then
    let p1 := clearHighlight s
    ({ p1.1 with promptVisible := false }, p1.2)
  else
    let p1 :=
      match ray with
      | some o => setCurrentInteractable o s
      | none => clearCurrentInteractable s
    if p1.1.currentInteractable ≠ none ∧ interactPressed = true then
      let p2 := interact p1.1
      (p2.1, p1.2 ++ p2.2)
    else
      p1

/-- Run `update` over a sequence of per-frame resolved raycast results (panel
closed, pointer locked, no interact presses), returning each frame's
post-state and emitted highlight operations. -/
def runFrames (rays : List (Option ℕ)) (s : InteractionState) :
    List (InteractionState × List HighlightOp) :=
  match rays with
  | [] => []
  | r :: rest =>
    let p := update true r false s
    p :: runFrames rest p.1

/-- An object counts as highlighted when its emissive is the configured
highlight color. -/
def highlighted (s : InteractionState) (o : ℕ) : Prop :=
  (s.mats o).emissive = Config.interaction.highlightColor

/-- Highlight well-formedness: only the current target can be highlighted,
captured originals never store the highlight color, and a highlighted current
target always has a capture to restore. -/
def HighlightInv (s : InteractionState) : Prop :=
  (∀ o, highlighted s o → s.currentInteractable = some o) ∧
  (∀ o c i, (s.mats o).originalEmissive = some (c, i) →
    c ≠ Config.interaction.highlightColor) ∧
  (∀ o, s.currentInteractable = some o → highlighted s o →
    (s.mats o).originalEmissive ≠ none)

end InteractionSystem

/-! ## VideoScreenSystem (videoScreenSystem.js)

The HTML5 video element is an external media resource; its fallible
asynchronous `play()` is modelled by a `playGranted` oracle flag (the
environment's autoplay-policy verdict, applied to this frame's attempt), and
"a new frame is available" (`readyState >= HAVE_CURRENT_DATA`) by
`frameReady`. -/

/-- Per-screen state. -/
structure Screen where
  triggerRadius : ℝ
  position : Vec3
  isPlaying : Bool
  autoplay : Bool
  targetVolume : ℝ
  volume : ℝ
  muted : Bool
  needsUpdate : Bool

/-- VideoScreenSystem mutable state. -/
structure VideoSystemState where
  playerPosition : Vec3
  screens : List Screen
  userInteracted : Bool

namespace VideoScreenSystem

/-- `playVideo`: mute and zero the volume for the autoplay attempt; a granted
play marks the screen playing (a rejection is logged and leaves it paused). -/
def playVideo (playGranted : Bool) (s : Screen) : Screen :=
  let s1 := { s with muted := true, volume := 0 }
  if playGranted then { s1 with isPlaying := true } else s1

/-- `updateScreen`: always keep the video playing (no proximity check), ramp
the volume toward the target once the user has interacted, unmuting after the
volume passes 0.1, and mark the texture dirty when a frame is available. -/
def updateScreen (playGranted userInteracted frameReady : Bool) (s : Screen) : Screen :=
  let s1 := if !s.isPlaying then playVideo playGranted s else s
  let s2 :=
    if s1.isPlaying && userInteracted then
      if s1.volume < s1.targetVolume then
        let v := min s1.targetVolume (s1.volume + 0.01)
        let s2a := { s1 with volume := v }
        if s2a.muted = true ∧ 0.1 < v then { s2a with muted := false } else s2a
      else s1
    else s1
  if frameReady then { s2 with needsUpdate := true } else s2

/-- `update`: copy the player position, then update every screen. -/
def update (playerPosition : Vec3) (playGranted frameReady : Bool)
    (st : VideoSystemState) : VideoSystemState :=
  { st with
    playerPosition := playerPosition
    screens := st.screens.map (updateScreen playGranted st.userInteracted frameReady) }

end VideoScreenSystem

end

/-! ## Helper lemmas -/

namespace Vec3

@[simp] theorem mk_zero : (⟨0, 0, 0⟩ : Vec3) = Vec3.zero := rfl

@[simp] theorem zero_multiplyScalar (t : ℝ) : Vec3.zero.multiplyScalar t = Vec3.zero := by
  simp only [Vec3.multiplyScalar, Vec3.zero, zero_mul]

@[simp] theorem add_zero_vec (v : Vec3) : v.add Vec3.zero = v := by
  ext <;> simp only [Vec3.add, Vec3.zero, add_zero]

end Vec3

theorem erase_foldl_not_mem {c : String} (L : List String) (ks : Finset String)
    (h : c ∉ ks) : c ∉ L.foldl (fun s a => s.erase a) ks := by
  induction L generalizing ks with
  | nil => exact h
  | cons a L ih =>
    simp only [List.foldl_cons]
    exact ih (ks.erase a) (fun hmem => h (Finset.mem_of_mem_erase hmem))

theorem mem_erase_foldl_not_mem {c : String} (L : List String) (ks : Finset String)
    (h : c ∈ L) : c ∉ L.foldl (fun s a => s.erase a) ks := by
  induction L generalizing ks with
  | nil => simp at h
  | cons a L ih =>
    simp only [List.foldl_cons]
    rcases List.mem_cons.mp h with rfl | hL
    · exact erase_foldl_not_mem L (ks.erase c) (Finset.not_mem_erase c ks)
    · exact ih (ks.erase a) hL

/-- C10: when `isInteractPressed` returns true it removes every configured
interact key code from the pressed set, so an immediately following call with
no intervening key-down returns false. -/
theorem isInteractPressed_consumes_input (keys : Finset String)
    (h : (InputManager.isInteractPressed keys).1 = true) :
    (∀ code ∈ Config.input.interact, code ∉ (InputManager.isInteractPressed keys).2) ∧
    (InputManager.isInteractPressed (InputManager.isInteractPressed keys).2).1 = false := by
  unfold InputManager.isInteractPressed at h ⊢
  by_cases hp : InputManager.isKeyPressed keys Config.input.interact = true
  · simp only [hp, if_true]
    have hout : ∀ code ∈ Config.input.interact,
        code ∉ Config.input.interact.foldl (fun s a => s.erase a) keys :=
      fun code hc => mem_erase_foldl_not_mem _ keys hc
    refine ⟨hout, ?_⟩
    have : InputManager.isKeyPressed
        (Config.input.interact.foldl (fun s a => s.erase a) keys) Config.input.interact = false := by
      simp only [InputManager.isKeyPressed, List.any_eq_false, decide_eq_true_eq]
      intro code hc
      exact fun hmem => hout code hc hmem
    simp [this]
  · simp [hp] at h

/-- C10 witness: with exactly the interact key pressed, the first call
returns true and consumes it; the immediate second call returns false. -/
theorem isInteractPressed_consumes_input_witness :
    (InputManager.isInteractPressed {"KeyE"}).1 = true ∧
    ((∀ code ∈ Config.input.interact, code ∉ (InputManager.isInteractPressed {"KeyE"}).2) ∧
     (InputManager.isInteractPressed (InputManager.isInteractPressed {"KeyE"}).2).1 = false) :=
  ⟨by decide, isInteractPressed_consumes_input {"KeyE"} (by decide)⟩

/-- C8: `formatContent` never recognizes the real bullet character U+2022 '•'
used by the repository's own kiosk content (its marker literal is the
mojibake three-character sequence), so a genuine bullet line from config.js
is rendered as a paragraph; and a line that does begin with the mojibake
marker keeps the marker's trailing two characters inside the list item
because only one character is stripped. -/
theorem formatContent_bullet_marker_mismatch :
    InteractionSystem.formatContent "• Sustainable architecture with LEED certification" =
      "<p>• Sustainable architecture with LEED certification</p>" ∧
    InteractionSystem.formatContent "â€¢ item one" = "<li>€¢ item one</li>" :=
  ⟨by decide, by decide⟩

/-- C1 counterexample: a non-playing screen with `triggerRadius = 12` starts
playing on the very next update even though the player stands at planar
distance 15 from it, because `updateScreen` performs no proximity check. -/
theorem updateScreen_plays_beyond_trigger_radius :
    let scr : Screen :=
      { triggerRadius := 12
        position := ⟨0, 5, 0⟩
        isPlaying := false
        autoplay := true
        targetVolume := 0.5
        volume := 0
        muted := true
        needsUpdate := false }
    let st : VideoSystemState :=
      { playerPosition := ⟨0, 0, 0⟩
        screens := [scr]
        userInteracted := false }
    ¬((15:ℝ) < scr.triggerRadius) ∧
    ((VideoScreenSystem.update ⟨15, 0, 0⟩ true false st).screens.map Screen.isPlaying) = [true] := by
  refine ⟨by norm_num, ?_⟩
  rfl

/-- C1 amended: `updateScreen` ignores the player position and the trigger
radius entirely (always-play policy): the screens produced by `update` do not
depend on the supplied player position, and a screen is playing afterwards iff
it was already playing or the environment granted this frame's play attempt. -/
theorem updateScreen_always_play_policy :
    (∀ (p q : Vec3) (g r : Bool) (st : VideoSystemState),
       (VideoScreenSystem.update p g r st).screens = (VideoScreenSystem.update q g r st).screens) ∧
    (∀ (g u r : Bool) (s : Screen),
       (VideoScreenSystem.updateScreen g u r s).isPlaying = (s.isPlaying || g)) := by
  constructor
  · intro p q g r st
    rfl
  · intro g u r s
    cases hp : s.isPlaying <;> cases g <;>
      simp only [VideoScreenSystem.updateScreen, VideoScreenSystem.playVideo, hp] <;>
      split_ifs <;> simp_all

/-- C5: with the smoothing targets held fixed (smoothFollow leaves them
untouched), one step at dt = 1/30 lands the smoothed vectors exactly where
two steps at dt = 1/60 do, because `t = 1 − (1 − smoothing)^(dt·60)` makes
`1 − t` multiplicative in dt; exact equality implies agreement within any
epsilon. -/
theorem smoothFollow_frame_rate_independent :
    ∀ s : CameraState,
      (CameraController.smoothFollow (1/30) s).currentPosition =
        (CameraController.smoothFollow (1/60) (CameraController.smoothFollow (1/60) s)).currentPosition ∧
      (CameraController.smoothFollow (1/30) s).currentLookAt =
        (CameraController.smoothFollow (1/60) (CameraController.smoothFollow (1/60) s)).currentLookAt := by
  intro s
  have hs : (1 - Config.camera.smoothing : ℝ) = 0.9 := by
    norm_num [Config.camera.smoothing]
  have e30 : (1 - Config.camera.smoothing : ℝ) ^ ((1:ℝ)/30 * 60) = 0.81 := by
    rw [hs, show ((1:ℝ)/30 * 60) = ((2:ℕ):ℝ) by norm_num, Real.rpow_natCast]
    norm_num
  have e60 : (1 - Config.camera.smoothing : ℝ) ^ ((1:ℝ)/60 * 60) = 0.9 := by
    rw [hs, show ((1:ℝ)/60 * 60) = (1:ℝ) by norm_num, Real.rpow_one]
  constructor <;>
    · simp only [CameraController.smoothFollow, e30, e60, Vec3.lerp]
      ext <;> (dsimp; ring)

theorem minPolar_le_maxPolar :
    Config.camera.minPolarAngle ≤ Config.camera.maxPolarAngle := by
  have h := Real.pi_gt_d6
  rw [Config.camera.minPolarAngle, Config.camera.maxPolarAngle]
  linarith

theorem clamp_mem_Icc (v lo hi : ℝ) (h : lo ≤ hi) :
    Utils.clamp v lo hi ∈ Set.Icc lo hi :=
  ⟨le_max_left lo _, max_le h (min_le_left hi v)⟩

@[simp] theorem smoothFollow_polarAngle (dt : ℝ) (s : CameraState) :
    (CameraController.smoothFollow dt s).polarAngle = s.polarAngle := rfl

@[simp] theorem updateTargetPositions_polarAngle (p : Vec3) (s : CameraState) :
    (CameraController.updateTargetPositions p s).polarAngle = s.polarAngle := rfl

theorem update_polarAngle_mem (f : CameraController.Frame) (s : CameraState)
    (h : s.polarAngle ∈ Set.Icc Config.camera.minPolarAngle Config.camera.maxPolarAngle) :
    (CameraController.update f.deltaTime f.isPointerLocked f.mouseDelta f.playerPosition s).polarAngle ∈
      Set.Icc Config.camera.minPolarAngle Config.camera.maxPolarAngle := by
  unfold CameraController.update
  cases f.isPointerLocked
  · simpa using h
  · simpa [CameraController.handleMouseInput] using
      clamp_mem_Icc _ _ _ minPolar_le_maxPolar

theorem run_polarAngle_mem (frames : List CameraController.Frame) (s : CameraState)
    (h : s.polarAngle ∈ Set.Icc Config.camera.minPolarAngle Config.camera.maxPolarAngle) :
    (CameraController.run frames s).polarAngle ∈
      Set.Icc Config.camera.minPolarAngle Config.camera.maxPolarAngle := by
  induction frames generalizing s with
  | nil => exact h
  | cons f fs ih =>
    exact ih _ (update_polarAngle_mem f s h)

/-- C2: the polar angle stays inside `[minPolarAngle, maxPolarAngle]` after
every update of any update sequence starting from the constructor state,
whatever the raw mouse deltas; the clamp is applied immediately inside
`handleMouseInput`; and the constructor and `reset()` polar values lie in the
range themselves. -/
theorem polarAngle_always_within_clamp_range :
    (∀ frames : List CameraController.Frame,
       (CameraController.run frames CameraController.init).polarAngle ∈
         Set.Icc Config.camera.minPolarAngle Config.camera.maxPolarAngle) ∧
    (∀ (mouseDelta : Vec2) (s : CameraState),
       (CameraController.handleMouseInput mouseDelta s).polarAngle ∈
         Set.Icc Config.camera.minPolarAngle Config.camera.maxPolarAngle) ∧
    CameraController.init.polarAngle ∈
      Set.Icc Config.camera.minPolarAngle Config.camera.maxPolarAngle ∧
    (∀ s : CameraState,
       (CameraController.reset s).polarAngle ∈
         Set.Icc Config.camera.minPolarAngle Config.camera.maxPolarAngle) := by
  have hpi := Real.pi_gt_d6
  have hpi0 := Real.pi_pos
  have h25 : Real.pi / 2.5 = 0.4 * Real.pi := by ring
  have h2 : Real.pi / 2 = 0.5 * Real.pi := by ring
  have hinit : CameraController.init.polarAngle ∈
      Set.Icc Config.camera.minPolarAngle Config.camera.maxPolarAngle := by
    constructor
    · rw [Config.camera.minPolarAngle]
      show (0.3 : ℝ) ≤ Real.pi / 2
      linarith
    · rw [Config.camera.maxPolarAngle]
      exact le_rfl
  refine ⟨fun frames => run_polarAngle_mem frames _ hinit,
          fun d s => ?_, hinit, fun s => ?_⟩
  · simpa [CameraController.handleMouseInput] using
      clamp_mem_Icc _ _ _ minPolar_le_maxPolar
  · constructor
    · rw [Config.camera.minPolarAngle]
      show (0.3 : ℝ) ≤ Real.pi / 2.5
      rw [h25]
      linarith
    · rw [Config.camera.maxPolarAngle]
      show Real.pi / 2.5 ≤ Real.pi / 2
      rw [h25, h2]
      linarith

theorem wrapDown_le (d : ℝ) : PlayerController.wrapDown d ≤ Real.pi := by
  induction d using PlayerController.wrapDown.induct with
  | case1 d h ih =>
    rw [PlayerController.wrapDown, dif_pos h]
    exact ih
  | case2 d h =>
    rw [PlayerController.wrapDown, dif_neg h]
    exact not_lt.mp h

theorem wrapDown_gt (d : ℝ) (hd : -Real.pi < d) : -Real.pi < PlayerController.wrapDown d := by
  induction d using PlayerController.wrapDown.induct with
  | case1 d h ih =>
    rw [PlayerController.wrapDown, dif_pos h]
    have hpi := Real.pi_pos
    exact ih (by linarith)
  | case2 d h =>
    rw [PlayerController.wrapDown, dif_neg h]
    exact hd

theorem wrapDown_sub_int (d : ℝ) :
    ∃ k : ℤ, PlayerController.wrapDown d = d - 2 * Real.pi * k := by
  induction d using PlayerController.wrapDown.induct with
  | case1 d h ih =>
    rw [PlayerController.wrapDown, dif_pos h]
    obtain ⟨k, hk⟩ := ih
    exact ⟨k + 1, by push_cast; linarith⟩
  | case2 d h =>
    rw [PlayerController.wrapDown, dif_neg h]
    exact ⟨0, by push_cast; ring⟩

theorem wrapUp_ge (d : ℝ) : -Real.pi ≤ PlayerController.wrapUp d := by
  induction d using PlayerController.wrapUp.induct with
  | case1 d h ih =>
    rw [PlayerController.wrapUp, dif_pos h]
    exact ih
  | case2 d h =>
    rw [PlayerController.wrapUp, dif_neg h]
    linarith [not_lt.mp h]

theorem wrapUp_le (d : ℝ) (hd : d ≤ Real.pi) : PlayerController.wrapUp d ≤ Real.pi := by
  induction d using PlayerController.wrapUp.induct with
  | case1 d h ih =>
    rw [PlayerController.wrapUp, dif_pos h]
    have hpi := Real.pi_pos
    exact ih (by linarith)
  | case2 d h =>
    rw [PlayerController.wrapUp, dif_neg h]
    exact hd

theorem wrapUp_add_int (d : ℝ) :
    ∃ k : ℤ, PlayerController.wrapUp d = d + 2 * Real.pi * k := by
  induction d using PlayerController.wrapUp.induct with
  | case1 d h ih =>
    rw [PlayerController.wrapUp, dif_pos h]
    obtain ⟨k, hk⟩ := ih
    exact ⟨k + 1, by push_cast; linarith⟩
  | case2 d h =>
    rw [PlayerController.wrapUp, dif_neg h]
    exact ⟨0, by push_cast; ring⟩

theorem wrapRotation_mem (d : ℝ) :
    -Real.pi ≤ PlayerController.wrapRotation d ∧ PlayerController.wrapRotation d ≤ Real.pi :=
  ⟨wrapUp_ge _, wrapUp_le _ (wrapDown_le d)⟩

theorem wrapRotation_add_int (d : ℝ) :
    ∃ k : ℤ, PlayerController.wrapRotation d = d + 2 * Real.pi * k := by
  obtain ⟨k1, hk1⟩ := wrapDown_sub_int d
  obtain ⟨k2, hk2⟩ := wrapUp_add_int (PlayerController.wrapDown d)
  exact ⟨k2 - k1, by rw [PlayerController.wrapRotation, hk2, hk1]; push_cast; ring⟩

theorem wrapRotation_neg_pi : PlayerController.wrapRotation (-Real.pi) = -Real.pi := by
  have hpi := Real.pi_pos
  have hdown : PlayerController.wrapDown (-Real.pi) = -Real.pi := by
    rw [PlayerController.wrapDown, dif_neg (by push_neg; linarith)]
  rw [PlayerController.wrapRotation, hdown, PlayerController.wrapUp,
    dif_neg (lt_irrefl (-Real.pi))]

theorem wrapRotation_pi : PlayerController.wrapRotation Real.pi = Real.pi := by
  have hpi := Real.pi_pos
  have hdown : PlayerController.wrapDown Real.pi = Real.pi := by
    rw [PlayerController.wrapDown, dif_neg (lt_irrefl Real.pi)]
  rw [PlayerController.wrapRotation, hdown, PlayerController.wrapUp,
    dif_neg (by push_neg; linarith)]

/-- C6 amended: in a single `updateRotation` the facing angle moves by the
wrapped difference (which lies in the closed interval [−π, π] and is congruent
to the raw difference modulo 2π) scaled by the turn-speed factor, so the
change never exceeds π in magnitude and always follows the shorter arc; both
interval endpoints are attainable: a raw difference of exactly −π is left at
−π by the wrap loops, and one of exactly π is left at π. -/
theorem updateRotation_shortest_arc (s : PlayerState) :
    (PlayerController.updateRotation s).currentRotation =
      s.currentRotation +
        PlayerController.wrapRotation (s.targetRotation - s.currentRotation) *
          Config.player.turnSpeed ∧
    |(PlayerController.updateRotation s).currentRotation - s.currentRotation| ≤ Real.pi ∧
    (-Real.pi ≤ PlayerController.wrapRotation (s.targetRotation - s.currentRotation) ∧
      PlayerController.wrapRotation (s.targetRotation - s.currentRotation) ≤ Real.pi) ∧
    PlayerController.wrapRotation (-Real.pi) = -Real.pi ∧
    PlayerController.wrapRotation Real.pi = Real.pi ∧
    ∃ k : ℤ, PlayerController.wrapRotation (s.targetRotation - s.currentRotation) =
      (s.targetRotation - s.currentRotation) + 2 * Real.pi * k := by
  have hmem := wrapRotation_mem (s.targetRotation - s.currentRotation)
  have hpi := Real.pi_pos
  refine ⟨rfl, ?_, hmem, wrapRotation_neg_pi, wrapRotation_pi, wrapRotation_add_int _⟩
  rw [PlayerController.updateRotation]
  have habs : |PlayerController.wrapRotation (s.targetRotation - s.currentRotation)| ≤ Real.pi :=
    abs_le.mpr ⟨hmem.1, hmem.2⟩
  rw [Config.player.turnSpeed]
  have : s.currentRotation +
      PlayerController.wrapRotation (s.targetRotation - s.currentRotation) * 0.1 -
      s.currentRotation =
      PlayerController.wrapRotation (s.targetRotation - s.currentRotation) * 0.1 := by ring
  rw [this, abs_mul]
  have h01 : |(0.1:ℝ)| = 0.1 := by norm_num
  rw [h01]
  nlinarith [abs_nonneg (PlayerController.wrapRotation (s.targetRotation - s.currentRotation))]

/-- C6 counterexample: with `currentRotation = 3.13` and
`targetRotation = −3.13` the smoothed rotation takes a small positive step
(the wrapped difference is `2π − 6.26 > 0`), not the small negative step the
specification's example describes; and with `currentRotation = π` and
`targetRotation = 0` the raw difference −π is left at −π by the wrap loops,
which lies outside the claimed half-open interval (−π, π]. -/
theorem updateRotation_pi_boundary_positive_step :
    let s : PlayerState :=
      { position := ⟨0, 0, 0⟩
        velocity := ⟨0, 0, 0⟩
        isGrounded := false
        moveDirection := ⟨0, 0, 0⟩
        targetRotation := -3.13
        currentRotation := 3.13 }
    let s2 : PlayerState :=
      { position := ⟨0, 0, 0⟩
        velocity := ⟨0, 0, 0⟩
        isGrounded := false
        moveDirection := ⟨0, 0, 0⟩
        targetRotation := 0
        currentRotation := Real.pi }
    s.currentRotation < (PlayerController.updateRotation s).currentRotation ∧
    PlayerController.wrapRotation (s2.targetRotation - s2.currentRotation) = -Real.pi ∧
    PlayerController.wrapRotation (s2.targetRotation - s2.currentRotation) ∉
      Set.Ioc (-Real.pi) Real.pi := by
  intro s s2
  have hd2 : s2.targetRotation - s2.currentRotation = -Real.pi := by
    show (0:ℝ) - Real.pi = -Real.pi
    ring
  refine ⟨?_, by rw [hd2]; exact wrapRotation_neg_pi, ?_⟩
  case refine_2 =>
    rw [hd2, wrapRotation_neg_pi]
    exact fun hmem => lt_irrefl (-Real.pi) hmem.1
  have hpiL := Real.pi_gt_d6
  have hpiU := Real.pi_lt_d2
  have hdiff : s.targetRotation - s.currentRotation = -6.26 := by
    show (-3.13 : ℝ) - 3.13 = -6.26
    norm_num
  have hdown : PlayerController.wrapDown (-6.26 : ℝ) = -6.26 := by
    rw [PlayerController.wrapDown, dif_neg]
    push_neg
    linarith
  have hup : PlayerController.wrapUp (-6.26 : ℝ) = -6.26 + 2 * Real.pi := by
    rw [PlayerController.wrapUp, dif_pos (by linarith : (-6.26:ℝ) < -Real.pi)]
    rw [PlayerController.wrapUp, dif_neg (by push_neg; linarith : ¬(-6.26 + 2 * Real.pi < -Real.pi))]
  have hwrap : PlayerController.wrapRotation (s.targetRotation - s.currentRotation) =
      -6.26 + 2 * Real.pi := by
    rw [PlayerController.wrapRotation, hdiff, hdown, hup]
  rw [PlayerController.updateRotation]
  simp only [hwrap, Config.player.turnSpeed]
  show (3.13:ℝ) < 3.13 + (-6.26 + 2 * Real.pi) * 0.1
  nlinarith

@[simp] theorem updateRotation_position (s : PlayerState) :
    (PlayerController.updateRotation s).position = s.position := rfl

@[simp] theorem updateRotation_velocity (s : PlayerState) :
    (PlayerController.updateRotation s).velocity = s.velocity := rfl

@[simp] theorem updateRotation_isGrounded (s : PlayerState) :
    (PlayerController.updateRotation s).isGrounded = s.isGrounded := rfl

theorem move_position_y_ge (scene : List SceneObject) (deltaTime : ℝ) (s : PlayerState) :
    Config.player.height / 2 ≤ (PlayerController.move scene deltaTime s).position.y := by
  rw [PlayerController.move]
  split_ifs with h
  · exact le_rfl
  · exact le_of_not_lt h

/-- C3: with the pointer captured, every `PlayerController.update` ends with
`position.y ≥ height/2`; and whenever the unclamped move would end below the
floor, the result is snapped to exactly `height/2` with the vertical velocity
zeroed and the grounded flag forced true, leaving the horizontal coordinates
of the unclamped result untouched. -/
theorem move_floor_clamp_invariant :
    (∀ (deltaTime : ℝ) (cameraForward : Vec3) (input : Vec2) (isSprinting : Bool)
       (groundHit : Option ℝ) (scene : List SceneObject) (s : PlayerState),
       Config.player.height / 2 ≤
         (PlayerController.update deltaTime cameraForward true input isSprinting
           groundHit scene s).position.y) ∧
    (∀ (scene : List SceneObject) (deltaTime : ℝ) (s : PlayerState),
       (PlayerController.moveUnclamped scene deltaTime s).position.y <
           Config.player.height / 2 →
         (PlayerController.move scene deltaTime s).position.y = Config.player.height / 2 ∧
         (PlayerController.move scene deltaTime s).velocity.y = 0 ∧
         (PlayerController.move scene deltaTime s).isGrounded = true ∧
         (PlayerController.move scene deltaTime s).position.x =
           (PlayerController.moveUnclamped scene deltaTime s).position.x ∧
         (PlayerController.move scene deltaTime s).position.z =
           (PlayerController.moveUnclamped scene deltaTime s).position.z) := by
  constructor
  · intro deltaTime cameraForward input isSprinting groundHit scene s
    rw [PlayerController.update, if_pos rfl]
    simpa using move_position_y_ge scene deltaTime _
  · intro scene deltaTime s h
    rw [PlayerController.move]
    simp [if_pos h]

/-- C3 witness: a concrete falling state (empty scene, `y = 0.5`, downward
velocity) whose unclamped move ends below the floor and is snapped to
`height/2 = 0.9` with velocity zeroed and grounded forced. -/
theorem move_floor_clamp_invariant_witness :
    (PlayerController.moveUnclamped [] 1
        ⟨⟨0, 0.5, 0⟩, ⟨0, -1, 0⟩, false, ⟨0, 0, 0⟩, 0, 0⟩).position.y <
      Config.player.height / 2 ∧
    ((PlayerController.move [] 1
        ⟨⟨0, 0.5, 0⟩, ⟨0, -1, 0⟩, false, ⟨0, 0, 0⟩, 0, 0⟩).position.y =
      Config.player.height / 2 ∧
     (PlayerController.move [] 1
        ⟨⟨0, 0.5, 0⟩, ⟨0, -1, 0⟩, false, ⟨0, 0, 0⟩, 0, 0⟩).velocity.y = 0 ∧
     (PlayerController.move [] 1
        ⟨⟨0, 0.5, 0⟩, ⟨0, -1, 0⟩, false, ⟨0, 0, 0⟩, 0, 0⟩).isGrounded = true ∧
     (PlayerController.move [] 1
        ⟨⟨0, 0.5, 0⟩, ⟨0, -1, 0⟩, false, ⟨0, 0, 0⟩, 0, 0⟩).position.x =
       (PlayerController.moveUnclamped [] 1
        ⟨⟨0, 0.5, 0⟩, ⟨0, -1, 0⟩, false, ⟨0, 0, 0⟩, 0, 0⟩).position.x ∧
     (PlayerController.move [] 1
        ⟨⟨0, 0.5, 0⟩, ⟨0, -1, 0⟩, false, ⟨0, 0, 0⟩, 0, 0⟩).position.z =
       (PlayerController.moveUnclamped [] 1
        ⟨⟨0, 0.5, 0⟩, ⟨0, -1, 0⟩, false, ⟨0, 0, 0⟩, 0, 0⟩).position.z) := by
  have hpre : (PlayerController.moveUnclamped [] 1
      ⟨⟨0, 0.5, 0⟩, ⟨0, -1, 0⟩, false, ⟨0, 0, 0⟩, 0, 0⟩).position.y <
      Config.player.height / 2 := by
    rw [PlayerController.moveUnclamped]
    rw [if_pos (by intro o ho; simp at ho)]
    show (0.5:ℝ) + (0 * 1 + -1 * 1) < Config.player.height / 2
    rw [Config.player.height]
    norm_num
  exact ⟨hpre, move_floor_clamp_invariant.2 [] 1 _ hpre⟩

theorem moveUnclamped_stationary (scene : List SceneObject) (deltaTime : ℝ) (s : PlayerState)
    (hmd : s.moveDirection = Vec3.zero) (hvy : s.velocity.y = 0) :
    PlayerController.moveUnclamped scene deltaTime s = s := by
  simp only [PlayerController.moveUnclamped, hmd, hvy, Vec3.zero_multiplyScalar, zero_mul,
    Vec3.mk_zero, Vec3.add_zero_vec]
  split_ifs <;> rw [← hmd]

theorem update_stationary_step (deltaTime : ℝ) (cameraForward : Vec3) (isSprinting : Bool)
    (d : ℝ) (scene : List SceneObject) (s : PlayerState)
    (hv : s.velocity.y ≤ 0) (hg : s.isGrounded = true)
    (hy : Config.player.height / 2 ≤ s.position.y)
    (hd : d < Config.player.height / 2 + 0.2) :
    (PlayerController.update deltaTime cameraForward true ⟨0, 0⟩ isSprinting
        (some d) scene s).position = s.position ∧
    (PlayerController.update deltaTime cameraForward true ⟨0, 0⟩ isSprinting
        (some d) scene s).velocity.y = 0 ∧
    (PlayerController.update deltaTime cameraForward true ⟨0, 0⟩ isSprinting
        (some d) scene s).isGrounded = true := by
  have hlen : (⟨0, 0⟩ : Vec2).length = 0 := by
    simp [Vec2.length]
  have h1 : PlayerController.calculateMovement ⟨0, 0⟩ cameraForward isSprinting s
      = { s with moveDirection := Vec3.zero } := by
    rw [PlayerController.calculateMovement, if_pos hlen]
  have h2 : PlayerController.applyGravity deltaTime { s with moveDirection := Vec3.zero }
      = { s with moveDirection := Vec3.zero, velocity := { s.velocity with y := 0 } } := by
    rw [PlayerController.applyGravity]
    rcases lt_or_eq_of_le hv with hlt | heq
    · simp [hg, hlt]
    · have hv3 : ({ s.velocity with y := 0 } : Vec3) = s.velocity := by
        ext <;> simp [← heq]
      simp [hg, heq, hv3]
  have h3 : ∀ t : PlayerState, PlayerController.checkGround (some d) t
      = { t with isGrounded := true } := by
    intro t
    rw [PlayerController.checkGround]
    simp [if_pos hd]
  have h4 : PlayerController.move scene deltaTime { s with moveDirection := Vec3.zero, velocity := { s.velocity with y := 0 }, isGrounded := true } = { s with moveDirection := Vec3.zero, velocity := { s.velocity with y := 0 }, isGrounded := true } := by
    rw [PlayerController.move, moveUnclamped_stationary _ _ _ rfl rfl]
    rw [if_neg (not_lt.mpr hy)]
  rw [PlayerController.update, if_pos rfl, h1, h2, h3, h4]
  exact ⟨rfl, rfl, rfl⟩

/-- C9: with pointer capture active, zero movement input, the player already
grounded on ground detected directly beneath (the downward ray hit is closer
than `height/2 + 0.2`), at or above the floor height and with no upward
velocity — the state every grounded frame of a run satisfies — any number of
repeated updates, for any `deltaTimeSeconds > 0`, leaves the position
unchanged with `verticalVelocity = 0` and the grounded flag true after every
update. -/
theorem update_grounded_zero_input_stationary (deltaTime : ℝ) (cameraForward : Vec3)
    (isSprinting : Bool) (d : ℝ) (scene : List SceneObject) (s : PlayerState) (n : ℕ)
    (_hdt : 0 < deltaTime) (hv : s.velocity.y ≤ 0) (hg : s.isGrounded = true)
    (hy : Config.player.height / 2 ≤ s.position.y)
    (hd : d < Config.player.height / 2 + 0.2) :
    ((fun st => PlayerController.update deltaTime cameraForward true ⟨0, 0⟩ isSprinting
        (some d) scene st)^[n + 1] s).position = s.position ∧
    ((fun st => PlayerController.update deltaTime cameraForward true ⟨0, 0⟩ isSprinting
        (some d) scene st)^[n + 1] s).velocity.y = 0 ∧
    ((fun st => PlayerController.update deltaTime cameraForward true ⟨0, 0⟩ isSprinting
        (some d) scene st)^[n + 1] s).isGrounded = true := by
  induction n generalizing s with
  | zero =>
    simpa using update_stationary_step deltaTime cameraForward isSprinting d scene s hv hg hy hd
  | succ n ih =>
    obtain ⟨hp, hvy, hgr⟩ :=
      update_stationary_step deltaTime cameraForward isSprinting d scene s hv hg hy hd
    have hstep := ih (PlayerController.update deltaTime cameraForward true ⟨0, 0⟩ isSprinting
        (some d) scene s) (le_of_eq hvy) hgr (by rw [hp]; exact hy)
    rw [Function.iterate_succ_apply]
    exact ⟨by rw [hstep.1, hp], hstep.2.1, hstep.2.2⟩

/-- C9 witness: a concrete grounded resting state (`y = 0.9 = height/2`,
zero velocity, ground hit at distance 0.9) with `dt = 0.016`, iterated twice. -/
theorem update_grounded_zero_input_stationary_witness :
    (0:ℝ) < 0.016 ∧
    ((⟨⟨0, 0.9, 0⟩, ⟨0, 0, 0⟩, true, ⟨0, 0, 0⟩, 0, 0⟩ : PlayerState).velocity.y ≤ 0) ∧
    ((⟨⟨0, 0.9, 0⟩, ⟨0, 0, 0⟩, true, ⟨0, 0, 0⟩, 0, 0⟩ : PlayerState).isGrounded = true) ∧
    (Config.player.height / 2 ≤
      (⟨⟨0, 0.9, 0⟩, ⟨0, 0, 0⟩, true, ⟨0, 0, 0⟩, 0, 0⟩ : PlayerState).position.y) ∧
    ((0.9:ℝ) < Config.player.height / 2 + 0.2) ∧
    (((fun st => PlayerController.update 0.016 ⟨0, 0, 1⟩ true ⟨0, 0⟩ false
        (some 0.9) [] st)^[1 + 1]
        (⟨⟨0, 0.9, 0⟩, ⟨0, 0, 0⟩, true, ⟨0, 0, 0⟩, 0, 0⟩ : PlayerState)).position =
      (⟨⟨0, 0.9, 0⟩, ⟨0, 0, 0⟩, true, ⟨0, 0, 0⟩, 0, 0⟩ : PlayerState).position ∧
     ((fun st => PlayerController.update 0.016 ⟨0, 0, 1⟩ true ⟨0, 0⟩ false
        (some 0.9) [] st)^[1 + 1]
        (⟨⟨0, 0.9, 0⟩, ⟨0, 0, 0⟩, true, ⟨0, 0, 0⟩, 0, 0⟩ : PlayerState)).velocity.y = 0 ∧
     ((fun st => PlayerController.update 0.016 ⟨0, 0, 1⟩ true ⟨0, 0⟩ false
        (some 0.9) [] st)^[1 + 1]
        (⟨⟨0, 0.9, 0⟩, ⟨0, 0, 0⟩, true, ⟨0, 0, 0⟩, 0, 0⟩ : PlayerState)).isGrounded = true) := by
  have hy : Config.player.height / 2 ≤
      (⟨⟨0, 0.9, 0⟩, ⟨0, 0, 0⟩, true, ⟨0, 0, 0⟩, 0, 0⟩ : PlayerState).position.y := by
    show Config.player.height / 2 ≤ (0.9:ℝ)
    rw [Config.player.height]
    norm_num
  have hd : (0.9:ℝ) < Config.player.height / 2 + 0.2 := by
    rw [Config.player.height]
    norm_num
  exact ⟨by norm_num, le_refl 0, rfl, hy, hd,
    update_grounded_zero_input_stationary 0.016 ⟨0, 0, 1⟩ false 0.9 [] _ 1
      (by norm_num) (le_refl 0) rfl hy hd⟩

/-- C7 counterexample: with the panel closed but the pointer not captured,
`update()` is not a no-op: a currently highlighted target has its emissive
restored from the captured original (0x00ffff → 0x111111) and the visible
prompt is hidden, so highlight state and the prompt signal both change. -/
theorem update_not_noop_when_pointer_unlocked :
    let s : InteractionState :=
      { currentInteractable := some 0
        mats := fun _ =>
          { emissive := Config.interaction.highlightColor
            emissiveIntensity := Config.interaction.highlightIntensity
            originalEmissive := some (0x111111, 0) }
        promptVisible := true
        isPanelOpen := false }
    s.isPanelOpen = false ∧
    (s.mats 0).emissive = 0x00ffff ∧
    ((InteractionSystem.update false none false s).1.mats 0).emissive = 0x111111 ∧
    (0x111111 : ℕ) ≠ 0x00ffff ∧
    s.promptVisible = true ∧
    (InteractionSystem.update false none false s).1.promptVisible = false := by
  refine ⟨rfl, rfl, ?_, by decide, rfl, ?_⟩ <;> rfl

/-- C7 amended: `update()` is a no-op exactly when a panel is open; when the
pointer is not captured (panel closed) it performs no raycast and leaves the
current-target pointer and every other object's material unchanged, but it
does clear the active highlight (restoring the captured emissive pair) and
hides the prompt. -/
theorem update_panel_open_noop_and_unlock_clears
    (locked : Bool) (ray : Option ℕ) (pressed : Bool) (s : InteractionState) :
    (s.isPanelOpen = true → InteractionSystem.update locked ray pressed s = (s, [])) ∧
    (s.isPanelOpen = false →
      ((InteractionSystem.update false ray pressed s).1.currentInteractable =
          s.currentInteractable ∧
       (InteractionSystem.update false ray pressed s).1.promptVisible = false ∧
       (InteractionSystem.update false ray pressed s).1.isPanelOpen = false ∧
       (InteractionSystem.update false ray pressed s).2.all
         (fun op => match op with | HighlightOp.clearH _ => true | _ => false) = true ∧
       (∀ o, s.currentInteractable ≠ some o →
          (InteractionSystem.update false ray pressed s).1.mats o = s.mats o) ∧
       (∀ o c i, s.currentInteractable = some o →
          (s.mats o).originalEmissive = some (c, i) →
          (InteractionSystem.update false ray pressed s).1.mats o =
            { s.mats o with emissive := c, emissiveIntensity := i }))) := by
  constructor
  · intro hp
    rw [InteractionSystem.update.eq_def, if_pos hp]
  · intro hp
    obtain ⟨cur, mats, prompt, panel⟩ := s
    replace hp : panel = false := hp
    subst hp
    cases cur with
    | none =>
      exact ⟨rfl, rfl, rfl, rfl, fun o _ => rfl, fun o c i hco _ => Option.noConfusion hco⟩
    | some a =>
      rw [InteractionSystem.update.eq_def]
      rw [if_neg (by simp), if_pos (show (!false : Bool) = true from rfl)]
      rw [InteractionSystem.clearHighlight.eq_def]
      dsimp only
      cases horig : (mats a).originalEmissive with
      | none =>
        dsimp only
        refine ⟨rfl, rfl, rfl, rfl, fun o _ => rfl, fun o c i hco hoe => ?_⟩
        injection hco with h
        subst h
        rw [horig] at hoe
        exact Option.noConfusion hoe
      | some p =>
        obtain ⟨c0, i0⟩ := p
        dsimp only
        refine ⟨rfl, rfl, rfl, rfl, fun o ho => ?_, fun o c i hco hoe => ?_⟩
        · have hne : o ≠ a := fun h => ho (by rw [h])
          simp [hne]
        · injection hco with h
          subst h
          rw [horig] at hoe
          injection hoe with h2
          obtain ⟨rfl, rfl⟩ := Prod.mk.injEq .. |>.mp h2
          simp [horig]

/-- C7 witness: the panel-open no-op applied at a concrete open-panel state,
and the unlock branch applied at a concrete highlighted-target state,
restoring its captured emissive. -/
theorem update_panel_open_noop_and_unlock_clears_witness :
    InteractionSystem.update true (some 1) true
        (⟨none, fun _ => ⟨0x222222, 0, none⟩, false, true⟩ : InteractionState) =
      ((⟨none, fun _ => ⟨0x222222, 0, none⟩, false, true⟩ : InteractionState), []) ∧
    (InteractionSystem.update false none false
        (⟨some 0, fun _ => ⟨0x00ffff, 0.5, some (0x111111, 0)⟩, true, false⟩ : InteractionState)).1.currentInteractable =
      (⟨some 0, fun _ => ⟨0x00ffff, 0.5, some (0x111111, 0)⟩, true, false⟩ : InteractionState).currentInteractable ∧
    (InteractionSystem.update false none false
        (⟨some 0, fun _ => ⟨0x00ffff, 0.5, some (0x111111, 0)⟩, true, false⟩ : InteractionState)).1.mats 0 =
      { (⟨some 0, fun _ => ⟨0x00ffff, 0.5, some (0x111111, 0)⟩, true, false⟩ : InteractionState).mats 0 with emissive := 0x111111, emissiveIntensity := 0 } :=
  ⟨(update_panel_open_noop_and_unlock_clears true (some 1) true _).1 rfl,
   ((update_panel_open_noop_and_unlock_clears false none false _).2 rfl).1,
   ((update_panel_open_noop_and_unlock_clears false none false _).2 rfl).2.2.2.2.2
     0 0x111111 0 rfl rfl⟩

theorem highlightInv_update (ray : Option ℕ) (s : InteractionState)
    (hpanel : s.isPanelOpen = false) (h : InteractionSystem.HighlightInv s) :
    InteractionSystem.HighlightInv (InteractionSystem.update true ray false s).1 ∧
    (InteractionSystem.update true ray false s).1.isPanelOpen = false := by
  obtain ⟨cur, mats, prompt, panel⟩ := s
  replace hpanel : panel = false := hpanel
  subst hpanel
  obtain ⟨h1, h2, h3⟩ := h
  rw [InteractionSystem.update.eq_def]
  rw [if_neg (by simp)]
  rw [if_neg (by simp : ¬((!true : Bool) = true))]
  rw [if_neg (by simp)]
  cases ray with
  | none =>
    rw [InteractionSystem.clearCurrentInteractable.eq_def]
    cases cur with
    | none =>
      exact ⟨⟨h1, h2, h3⟩, rfl⟩
    | some a =>
      rw [InteractionSystem.clearHighlight.eq_def]
      dsimp only
      cases horig : (mats a).originalEmissive with
      | none =>
        dsimp only
        refine ⟨⟨fun o ho => ?_, h2, fun o hco => ?_⟩, rfl⟩
        · exfalso
          have := h1 o ho
          injection this with hao
          subst hao
          exact h3 a rfl ho horig
        · exact Option.noConfusion hco
      | some p =>
        obtain ⟨c0, i0⟩ := p
        dsimp only
        refine ⟨⟨fun o ho => ?_, fun o c i hcap => ?_, fun o hco => ?_⟩, rfl⟩
        · exfalso
          simp only [InteractionSystem.highlighted] at ho
          by_cases hoa : o = a
          · subst hoa
            rw [if_pos rfl] at ho
            exact h2 o c0 i0 horig ho
          · rw [if_neg hoa] at ho
            have := h1 o ho
            injection this with hao
            exact hoa hao.symm
        · by_cases hoa : o = a
          · subst hoa
            simp only [if_pos rfl] at hcap
            exact h2 o c i (horig.symm ▸ hcap)
          · simp only [if_neg hoa] at hcap
            exact h2 o c i hcap
        · exact Option.noConfusion hco
  | some o =>
    dsimp only
    rw [InteractionSystem.setCurrentInteractable.eq_def]
    by_cases hco : cur = some o
    · rw [if_pos hco]
      exact ⟨⟨h1, h2, h3⟩, rfl⟩
    · rw [if_neg hco]
      cases cur with
      | none =>
        rw [InteractionSystem.clearHighlight.eq_def]
        dsimp only
        rw [InteractionSystem.highlightObject.eq_def]
        dsimp only
        have hnotHl : ¬ InteractionSystem.highlighted ⟨none, mats, prompt, false⟩ o :=
          fun hl => Option.noConfusion (h1 o hl)
        simp only [InteractionSystem.highlighted] at hnotHl
        cases hmo : (mats o).originalEmissive with
        | none =>
          dsimp only
          refine ⟨⟨fun o2 ho2 => ?_, fun o2 c i hcap => ?_, fun o2 hco2 _ => ?_⟩, rfl⟩
          · simp only [InteractionSystem.highlighted] at ho2
            by_cases ho2o : o2 = o
            · subst ho2o; rfl
            · rw [if_neg ho2o] at ho2
              exact Option.noConfusion (h1 o2 ho2)
          · by_cases ho2o : o2 = o
            · subst ho2o
              simp only [if_pos rfl] at hcap
              injection hcap with hc2
              obtain ⟨rfl, rfl⟩ := Prod.mk.injEq .. |>.mp hc2
              exact hnotHl
            · simp only [if_neg ho2o] at hcap
              exact h2 o2 c i hcap
          · injection hco2 with ho2o
            subst ho2o
            simp only [if_pos rfl]
            exact Option.noConfusion
        | some p0 =>
          dsimp only
          refine ⟨⟨fun o2 ho2 => ?_, fun o2 c i hcap => ?_, fun o2 hco2 _ => ?_⟩, rfl⟩
          · simp only [InteractionSystem.highlighted] at ho2
            by_cases ho2o : o2 = o
            · subst ho2o; rfl
            · rw [if_neg ho2o] at ho2
              exact Option.noConfusion (h1 o2 ho2)
          · by_cases ho2o : o2 = o
            · subst ho2o
              simp only [if_pos rfl] at hcap
              exact h2 o2 c i (hmo.symm ▸ hcap)
            · simp only [if_neg ho2o] at hcap
              exact h2 o2 c i hcap
          · injection hco2 with ho2o
            subst ho2o
            simp only [if_pos rfl, hmo]
            exact Option.noConfusion
      | some a =>
        have hao : o ≠ a := fun he => hco (by rw [he])
        rw [InteractionSystem.clearHighlight.eq_def]
        dsimp only
        have hnotHlo : (mats o).emissive ≠ Config.interaction.highlightColor := by
          intro hl
          exact hco (h1 o hl)
        cases horig : (mats a).originalEmissive with
        | none =>
          dsimp only
          rw [InteractionSystem.highlightObject.eq_def]
          dsimp only
          have hnotHla : (mats a).emissive ≠ Config.interaction.highlightColor := by
            intro hl
            exact h3 a rfl hl horig
          cases hmo : (mats o).originalEmissive with
          | none =>
            dsimp only
            refine ⟨⟨fun o2 ho2 => ?_, fun o2 c i hcap => ?_, fun o2 hco2 _ => ?_⟩, rfl⟩
            · simp only [InteractionSystem.highlighted] at ho2
              by_cases ho2o : o2 = o
              · subst ho2o; rfl
              · exfalso
                rw [if_neg ho2o] at ho2
                have := h1 o2 ho2
                injection this with ha2
                subst ha2
                exact hnotHla ho2
            · by_cases ho2o : o2 = o
              · subst ho2o
                simp only [if_pos rfl] at hcap
                injection hcap with hc2
                obtain ⟨rfl, rfl⟩ := Prod.mk.injEq .. |>.mp hc2
                exact hnotHlo
              · simp only [if_neg ho2o] at hcap
                exact h2 o2 c i hcap
            · injection hco2 with ho2o
              subst ho2o
              simp only [if_pos rfl]
              exact Option.noConfusion
          | some p0 =>
            dsimp only
            refine ⟨⟨fun o2 ho2 => ?_, fun o2 c i hcap => ?_, fun o2 hco2 _ => ?_⟩, rfl⟩
            · simp only [InteractionSystem.highlighted] at ho2
              by_cases ho2o : o2 = o
              · subst ho2o; rfl
              · exfalso
                rw [if_neg ho2o] at ho2
                have := h1 o2 ho2
                injection this with ha2
                subst ha2
                exact hnotHla ho2
            · by_cases ho2o : o2 = o
              · subst ho2o
                simp only [if_pos rfl] at hcap
                exact h2 o2 c i (hmo.symm ▸ hcap)
              · simp only [if_neg ho2o] at hcap
                exact h2 o2 c i hcap
            · injection hco2 with ho2o
              subst ho2o
              simp only [if_pos rfl, hmo]
              exact Option.noConfusion
        | some p =>
          obtain ⟨c0, i0⟩ := p
          dsimp only
          rw [InteractionSystem.highlightObject.eq_def]
          dsimp only
          simp only [if_neg hao]
          cases hmo : (mats o).originalEmissive with
          | none =>
            dsimp only
            refine ⟨⟨fun o2 ho2 => ?_, fun o2 c i hcap => ?_, fun o2 hco2 _ => ?_⟩, trivial⟩
            · simp only [InteractionSystem.highlighted] at ho2
              by_cases ho2o : o2 = o
              · subst ho2o; rfl
              · exfalso
                rw [if_neg ho2o] at ho2
                by_cases ho2a : o2 = a
                · subst ho2a
                  rw [if_pos rfl] at ho2
                  exact h2 o2 c0 i0 horig ho2
                · rw [if_neg ho2a] at ho2
                  have := h1 o2 ho2
                  injection this with ha2
                  exact ho2a ha2.symm
            · by_cases ho2o : o2 = o
              · subst ho2o
                simp only [if_pos rfl] at hcap
                injection hcap with hc2
                obtain ⟨rfl, rfl⟩ := Prod.mk.injEq .. |>.mp hc2
                exact hnotHlo
              · simp only [if_neg ho2o] at hcap
                by_cases ho2a : o2 = a
                · subst ho2a
                  simp only [if_pos rfl] at hcap
                  exact h2 o2 c i (horig.symm ▸ hcap)
                · simp only [if_neg ho2a] at hcap
                  exact h2 o2 c i hcap
            · injection hco2 with ho2o
              subst ho2o
              simp only [if_pos rfl]
              exact Option.noConfusion
          | some p0 =>
            dsimp only
            refine ⟨⟨fun o2 ho2 => ?_, fun o2 c i hcap => ?_, fun o2 hco2 _ => ?_⟩, trivial⟩
            · simp only [InteractionSystem.highlighted] at ho2
              by_cases ho2o : o2 = o
              · subst ho2o; rfl
              · exfalso
                rw [if_neg ho2o] at ho2
                by_cases ho2a : o2 = a
                · subst ho2a
                  rw [if_pos rfl] at ho2
                  exact h2 o2 c0 i0 horig ho2
                · rw [if_neg ho2a] at ho2
                  have := h1 o2 ho2
                  injection this with ha2
                  exact ho2a ha2.symm
            · by_cases ho2o : o2 = o
              · subst ho2o
                simp only [if_pos rfl] at hcap
                exact h2 o2 c i (hmo.symm ▸ hcap)
              · simp only [if_neg ho2o] at hcap
                by_cases ho2a : o2 = a
                · subst ho2a
                  simp only [if_pos rfl] at hcap
                  exact h2 o2 c i (horig.symm ▸ hcap)
                · simp only [if_neg ho2a] at hcap
                  exact h2 o2 c i hcap
            · injection hco2 with ho2o
              subst ho2o
              simp only [if_pos rfl, hmo]
              exact Option.noConfusion

theorem highlightInv_runFrames (rays : List (Option ℕ)) (s : InteractionState)
    (hpanel : s.isPanelOpen = false) (h : InteractionSystem.HighlightInv s) :
    ∀ e ∈ InteractionSystem.runFrames rays s,
      InteractionSystem.HighlightInv e.1 ∧ e.1.isPanelOpen = false := by
  induction rays generalizing s with
  | nil =>
    intro e he
    simp [InteractionSystem.runFrames] at he
  | cons r rest ih =>
    intro e he
    rw [InteractionSystem.runFrames] at he
    obtain ⟨hInv2, hpanel2⟩ := highlightInv_update r s hpanel h
    rcases List.mem_cons.mp he with rfl | he2
    · exact ⟨hInv2, hpanel2⟩
    · exact ih _ hpanel2 hInv2 e he2

/-- C4: over the resolved raycast sequence [miss, hit(0), hit(0), hit(1),
miss] with the panel closed and the pointer captured, the emitted highlight
operations are exactly [(none), apply(0), no-op, clear(0)+apply(1),
clear(1)] — re-hitting the current target emits nothing — and after every
frame at most one object is highlighted. -/
theorem interaction_trace_highlight_ops :
    let s0 : InteractionState :=
      { currentInteractable := none
        mats := fun _ => { emissive := 0x222222, emissiveIntensity := 0, originalEmissive := none }
        promptVisible := false
        isPanelOpen := false }
    let tr := InteractionSystem.runFrames [none, some 0, some 0, some 1, none] s0
    tr.map Prod.snd =
      [[], [HighlightOp.applyH 0], [], [HighlightOp.clearH 0, HighlightOp.applyH 1],
       [HighlightOp.clearH 1]] ∧
    ∀ e ∈ tr, ∀ o o2, InteractionSystem.highlighted e.1 o →
      InteractionSystem.highlighted e.1 o2 → o = o2 := by
  intro s0 tr
  constructor
  · rfl
  · have hInv0 : InteractionSystem.HighlightInv s0 := by
      refine ⟨fun o ho => ?_, fun o c i hcap => ?_, fun o hco _ => ?_⟩
      · exact absurd ho (by simp [InteractionSystem.highlighted, s0,
          Config.interaction.highlightColor])
      · exact Option.noConfusion hcap
      · exact Option.noConfusion hco
    intro e he o o2 ho ho2
    obtain ⟨⟨h1, _, _⟩, _⟩ := highlightInv_runFrames _ s0 rfl hInv0 e he
    have hx := h1 o ho
    have hy := h1 o2 ho2
    rw [hx] at hy
    injection hy
